import Mathlib

/-!
Verification of the picture reconciliation / tag-folder subsystem of the
`social-network-simulator` repository.

The Python sources embedded here are:
* `social_network/validators.py` — `tag_normalizer`, `safe_parse_tags`;
* `social_network/file_structure_manager.py` — `get_path`, `create_pointer_file`;
* `social_network/main.py` — `reconcile_images_by_user`, `reconcile_images`,
  `batch_create_pointer_files`.

Modelling conventions:
* Python dictionaries (picture records) are association lists `Record` over a
  small value universe `PyVal` (strings, integers, lists, `None`);
* in-place mutation of a dictionary is state passing: the function returns the
  updated dictionary, which is simultaneously the post-state of its argument
  (in the source the returned object *is* the argument);
* filesystem side effects (`Path.mkdir`, `Path.write_text`) are oracles
  `FsOutcome`-valued functions supplied as parameters; a successful
  `write_text` is recorded as a `WriteEvent`;
* a raised Python exception that escapes a function is an `Except.error`;
* regular-expression matching with the literal pattern `picture_id:\s*(\w+)`
  is implemented directly over character lists, with `\w` read as the ASCII
  class `[A-Za-z0-9_]` (the class the repository's own
  `VALID_NAME_PATTERN` spells out).
-/

namespace SocialNetwork

/-- The single-quote character, used by Python `repr` of strings. -/
def squote : Char := Char.ofNat 39

/-- Python values that can appear in a picture record. -/
inductive PyVal : Type
  | none : PyVal
  | int : Int → PyVal
  | str : String → PyVal
  | list : List PyVal → PyVal

/-- Python truthiness for the modelled values: `None`, `0`, `""` and `[]`
are falsy, everything else is truthy. -/
def pyTruthy : PyVal → Bool
  | .none => false
  | .int n => n ≠ 0
  | .str s => s ≠ ""
  | .list l => !l.isEmpty

mutual

/-- Python `repr`, restricted to the modelled values.  String escaping is not
modelled: tags are folder-safe tokens and never contain quotes. -/
def pyRepr : PyVal → String
  | .none => "None"
  | .int n => toString n
  | .str s => String.mk [squote] ++ s ++ String.mk [squote]
  | .list l => "[" ++ String.intercalate ", " (pyReprList l) ++ "]"

/-- `repr` of each element of a list value. -/
def pyReprList : List PyVal → List String
  | [] => []
  | v :: vs => pyRepr v :: pyReprList vs

end

/-- Python `str` (the conversion an f-string applies), restricted to the
modelled values. -/
def pyStr : PyVal → String
  | .str s => s
  | v => pyRepr v

/-- Python whitespace, as stripped by `str.strip` and matched by `\s`. -/
def isPySpace (c : Char) : Bool :=
  c = ' ' || c = '\t' || c = '\n' || c = '\r' || c = '\x0b' || c = '\x0c'

/-- `str.strip()`: drop leading and trailing whitespace. -/
def pyStrip (s : String) : String :=
  String.mk (((s.data.dropWhile isPySpace).reverse.dropWhile isPySpace).reverse)

/-- A character of the folder-safe class `[A-Za-z0-9_]` (the repository's
`VALID_NAME_PATTERN`, also used to read `\w` in the scan pattern). -/
def isWordChar (c : Char) : Bool :=
  ('a' ≤ c && c ≤ 'z') || ('A' ≤ c && c ≤ 'Z') || ('0' ≤ c && c ≤ '9') || c = '_'

/-- `re.fullmatch(r"^[a-zA-Z0-9_]+$", s)` as a Boolean. -/
def fullmatchValidName (s : String) : Bool :=
  !s.data.isEmpty && s.data.all isWordChar

/-- Lexicographic comparison of character lists by code point — the order
Python's `sorted` uses on strings. -/
def charListLe : List Char → List Char → Bool
  | [], _ => true
  | _ :: _, [] => false
  | a :: as, b :: bs => if a < b then true else if b < a then false else charListLe as bs

/-- Python string comparison `a <= b`. -/
def strLe (a b : String) : Bool := charListLe a.data b.data

/-- Python `sorted` on a list of strings. -/
def pySorted (l : List String) : List String :=
  List.insertionSort (fun a b => strLe a b = true) l

/-- Python `str.split` on the single character `#`. -/
def splitHash : List Char → List (List Char)
  | [] => [[]]
  | c :: rest =>
    if c = '#' then [] :: splitHash rest
    else
      match splitHash rest with
      | [] => [[c]]
      | group :: groups => (c :: group) :: groups

/-- Numeric value of a digit character list, most significant first. -/
def digitsToNat (cs : List Char) : Nat :=
  cs.foldl (fun acc c => acc * 10 + (c.toNat - '0'.toNat)) 0

/-- Python `int(·)` applied to a value, as the source's
`int(record["id"])`: integers convert to themselves, strings are stripped and
parsed as an optionally signed digit run; every failing case
(`ValueError`/`TypeError`) is `none`.  Digit-group underscores are not
modelled. -/
def pyToInt : PyVal → Option Int
  | .int n => some n
  | .str s =>
    match (pyStrip s).data with
    | [] => none
    | '-' :: ds => if !ds.isEmpty && ds.all (·.isDigit) then some (-(digitsToNat ds : Int)) else none
    | '+' :: ds => if !ds.isEmpty && ds.all (·.isDigit) then some ((digitsToNat ds : Int)) else none
    | ds => if ds.all (·.isDigit) then some ((digitsToNat ds : Int)) else none
  | _ => none

/-! ### Python dictionaries -/

/-- A Python dictionary, as an association list keyed by strings; lookup
returns the first binding. -/
abbrev Record : Type := List (String × PyVal)

/-- `record[key]` / `record.get(key)`: the value of the first binding of
`key`, if any. -/
def getKey : Record → String → Option PyVal
  | [], _ => none
  | (k, v) :: rest, key => if k = key then some v else getKey rest key

/-- `record[key] = value`: replace the value of an existing binding, or add a
new binding at the end (Python dicts keep insertion order). -/
def setKey : Record → String → PyVal → Record
  | [], key, value => [(key, value)]
  | (k, v) :: rest, key, value =>
    if k = key then (key, value) :: rest else (k, v) :: setKey rest key value

/-- A generic dictionary with values of an arbitrary type, used for the
result mapping of `reconcile_images`. -/
abbrev Dict (α : Type) : Type := List (String × α)

/-- Insertion-order-preserving `results[key] = value` on a `Dict`. -/
def setEntry {α : Type} : Dict α → String → α → Dict α
  | [], key, value => [(key, value)]
  | (k, v) :: rest, key, value =>
    if k = key then (key, value) :: rest else (k, v) :: setEntry rest key value

/-! ### `ast.literal_eval` (library model)

Model of Python's `ast.literal_eval`, restricted to the literal shapes the
repository stores in the `tags` column: integer literals, single-quoted
string literals (without escape sequences) and lists of such literals.
Anything else is a parse error (`Except.error`). -/

/-- Consume a single-quoted string literal body up to its closing quote. -/
def takeQuoted : List Char → Option (List Char × List Char)
  | [] => none
  | c :: rest =>
    if c = squote then some ([], rest)
    else match takeQuoted rest with
      | some (body, r) => some (c :: body, r)
      | none => none

/-- Parse one scalar literal (int or single-quoted string) at the head of the
character list. -/
def parseScalar (cs : List Char) : Option (PyVal × List Char) :=
  match cs with
  | [] => none
  | c :: rest =>
    if c = squote then
      match takeQuoted rest with
      | some (body, r) => some (.str (String.mk body), r)
      | none => none
    else if c = '-' then
      match rest.takeWhile (·.isDigit), rest.dropWhile (·.isDigit) with
      | [], _ => none
      | ds, r => some (.int (-(digitsToNat ds : Int)), r)
    else if c.isDigit then
      some (.int (digitsToNat ((c :: rest).takeWhile (·.isDigit))),
        (c :: rest).dropWhile (·.isDigit))
    else none

/-- Parse the items of a list literal after the opening bracket; `fuel`
bounds the recursion by the input length. -/
def parseItems : Nat → List Char → Option (List PyVal × List Char)
  | 0, _ => none
  | fuel + 1, cs =>
    let cs1 := cs.dropWhile isPySpace
    match cs1 with
    | ']' :: rest => some ([], rest)
    | _ =>
      match parseScalar cs1 with
      | none => none
      | some (v, r) =>
        match r.dropWhile isPySpace with
        | ',' :: r2 =>
          match parseItems fuel r2 with
          | some (items, after) => some (v :: items, after)
          | none => none
        | ']' :: r2 => some ([v], r2)
        | _ => none

/-- Model of `ast.literal_eval`: evaluate a stripped string as an int, a
single-quoted string, or a (possibly empty) list of scalars. -/
def literal_eval (s : String) : Except Unit PyVal :=
  let cs := (pyStrip s).data
  match parseScalar cs with
  | some (v, rest) => if rest.isEmpty then .ok v else .error ()
  | none =>
    match cs with
    | '[' :: rest =>
      match parseItems (rest.length + 1) rest with
      | some (items, after) =>
        if (after.dropWhile isPySpace).isEmpty then .ok (.list items) else .error ()
      | none => .error ()
    | _ => .error ()

/-! ### `social_network/validators.py` -/

/-- The list of `#`-split, stripped, nonempty tokens of a tag string — the
elements of the source's `unique_tags` set comprehension
`{tag.strip() for tag in raw_tags if tag.strip()}` before deduplication. -/
def strippedTokens (tags : String) : List String :=
  ((splitHash tags.data).map (fun cs => pyStrip (String.mk cs))).filter (· ≠ "")

/-- `validators.tag_normalizer`: split on `#`, strip, drop empties,
deduplicate (the set comprehension), keep tokens fully matching
`[a-zA-Z0-9_]+`, and sort.  The set's iteration order is irrelevant because
the result is sorted; deduplication is modelled by `List.dedup`. -/
def tag_normalizer (tags : String) : List String :=
  let unique_tags := (strippedTokens tags).dedup
  let normalized_tags := pySorted (unique_tags.filter fullmatchValidName)
  if normalized_tags.isEmpty then [] else normalized_tags

/-- `validators.safe_parse_tags`: if the `tags` value is a string, replace it
by its `literal_eval` (empty list when parsing raises); any other value —
including a missing key, read as `None` by `picture.get("tags")` — is written
back unchanged.  The returned dictionary is the argument's post-state: the
source mutates `picture` in place and returns it. -/
def safe_parse_tags (picture : Record) : Record :=
  let tags := (getKey picture "tags").getD .none
  let tags' :=
    match tags with
    | .str s =>
      match literal_eval s with
      | .ok v => v
      | .error _ => .list []
    | v => v
  setKey picture "tags" tags'

/-! ### `social_network/file_structure_manager.py`

Paths are lists of segments: `Path("picture_storage") / user_id` is
`["picture_storage", user_id]` and `joinpath(*folders)` appends one segment
per element. -/

/-- A Python exception escaping a modelled function. -/
inductive PyErr : Type
  | attributeError : PyErr
  | typeError : PyErr
  deriving DecidableEq

/-- Element-wise unpacking of a list value into string path segments; a
non-string element raises `TypeError` in `joinpath`. -/
def strSegments : List PyVal → Option (List String)
  | [] => some []
  | .str s :: rest => (strSegments rest).map (s :: ·)
  | _ => none

/-- The segments contributed by `base_dir.joinpath(*folders)`: a list
unpacks element-wise (each element must be a string), a string unpacks into
its characters (each a one-character path segment), anything else raises
`TypeError`. -/
def joinSegments : PyVal → Option (List String)
  | .list l => strSegments l
  | .str s => some (s.data.map (fun c => String.mk [c]))
  | _ => none

/-- `file_structure_manager.get_path`: `None` (`Except.ok none`) when
`user_id` or `picture_id` is missing (the `KeyError` handler), otherwise the
directory `picture_storage/<user_id>[/<tag>...]` derived from the parsed
tags; a non-string `user_id` or tags that `joinpath` cannot unpack raise
`TypeError`. -/
def get_path (record : Record) : Except PyErr (Option (List String)) :=
  match getKey record "user_id" with
  | Option.none => .ok none
  | some user_id =>
    match getKey record "picture_id" with
    | Option.none => .ok none
    | some _ =>
      let record' := safe_parse_tags record
      let folders := (getKey record' "tags").getD .none
      if pyTruthy folders then
        match user_id with
        | .str uid =>
          match joinSegments folders with
          | some segs => .ok (some ("picture_storage" :: uid :: segs))
          | Option.none => .error .typeError
        | _ => .error .typeError
      else
        match user_id with
        | .str uid => .ok (some ["picture_storage", uid])
        | _ => .error .typeError

/-- Outcome of one filesystem call (`Path.mkdir` / `Path.write_text`). -/
inductive FsOutcome : Type
  | ok : FsOutcome
  | permError : FsOutcome
  | osError : FsOutcome
  deriving DecidableEq

/-- A successful `write_text`: directory, file name and file content. -/
structure WriteEvent : Type where
  dir : List String
  name : String
  content : String
  deriving DecidableEq

/-- Python `f"{n:010}"`: zero-pad to overall width 10 (the sign counts
towards the width). -/
def zeroPad10 (n : Int) : String :=
  let digits := toString n.natAbs
  let pad := fun (w : Nat) (s : String) =>
    String.mk (List.replicate (w - s.length) '0') ++ s
  if n < 0 then "-" ++ pad 9 digits else pad 10 digits

/-- `file_structure_manager.create_pointer_file`, with the filesystem as two
oracles: `mkF dir` is the outcome of `full_path.mkdir(parents=True,
exist_ok=True)` and `wF dir name` the outcome of `file_path.write_text`.
Returns the source's Boolean together with the successful write, if any; a
`None` path from `get_path` raises `AttributeError` (`None.mkdir`), which the
source does not catch. -/
def create_pointer_file (mkF : List String → FsOutcome)
    (wF : List String → String → FsOutcome) (record : Record) :
    Except PyErr (Bool × List WriteEvent) :=
  match (getKey record "id").bind pyToInt with
  | Option.none => .ok (false, [])
  | some numeric_id =>
    let file_name := zeroPad10 numeric_id ++ ".txt"
    match get_path record with
    | .error e => .error e
    | .ok Option.none => .error .attributeError
    | .ok (some full_path) =>
      match mkF full_path with
      | .ok =>
        let record' := safe_parse_tags record
        let content :=
          "Pointer file for picture_id: " ++
            pyStr ((getKey record' "picture_id").getD .none) ++
          "\nUser ID: " ++ pyStr ((getKey record' "user_id").getD .none) ++
          "\nTags: " ++ pyStr ((getKey record' "tags").getD .none)
        match wF full_path file_name with
        | .ok => .ok (true, [⟨full_path, file_name, content⟩])
        | _ => .ok (false, [])
      | _ => .ok (false, [])

/-! ### The content-scan pattern `picture_id:\s*(\w+)`

`main.reconcile_images_by_user` extracts a picture id from a file's content
with `re.search(r"picture_id:\s*(\w+)", content)`.  The pattern is literal
text followed by greedy whitespace and a nonempty word-character group;
since whitespace and word characters are disjoint, backtracking never helps,
so the match at a position succeeds exactly when the literal matches there
and a word character follows the maximal whitespace run. -/

/-- The literal part of the scan pattern, as characters. -/
def pidPattern : List Char :=
  ['p', 'i', 'c', 't', 'u', 'r', 'e', '_', 'i', 'd', ':']

/-- Match a literal character list at the head of the input, returning the
remainder. -/
def stripLiteral : List Char → List Char → Option (List Char)
  | [], cs => some cs
  | _ :: _, [] => none
  | p :: ps, c :: cs => if c = p then stripLiteral ps cs else none

/-- Try the whole pattern at the current position: the literal, then `\s*`,
then a nonempty `\w+` group (the captured group is returned). -/
def matchHere (cs : List Char) : Option (List Char) :=
  match stripLiteral pidPattern cs with
  | Option.none => none
  | some rest =>
    let group := (rest.dropWhile isPySpace).takeWhile isWordChar
    if group.isEmpty then none else some group

/-- `re.search`: try the pattern at each position, left to right. -/
def searchFrom : List Char → Option (List Char)
  | [] => none
  | c :: cs =>
    match matchHere (c :: cs) with
    | some group => some group
    | Option.none => searchFrom cs

/-- The recovered picture id of a file content: the first match's captured
group, if the pattern matches anywhere. -/
def scanPictureId (content : String) : Option String :=
  (searchFrom content.data).map String.mk

/-! ### `social_network/main.py` -/

/-- A row of the `PictureTable`: dataset rows always carry the `user_id` and
`picture_id` columns as strings; `id` (the auto-increment key) and `tags`
are kept as raw Python values.  The unused `file_name` column is omitted. -/
structure PicRow : Type where
  id : PyVal
  picture_id : String
  user_id : String
  tags : PyVal

/-- The dictionary the dataset layer hands to `safe_parse_tags` /
`create_pointer_file` for a row. -/
def PicRow.toRecord (r : PicRow) : Record :=
  [("id", r.id), ("picture_id", .str r.picture_id),
   ("user_id", .str r.user_id), ("tags", r.tags)]

/-- A row of the `UserTable` (only the `user_id` column is read by the
reconciliation code). -/
structure UserRow : Type where
  user_id : String
  deriving DecidableEq

/-- The on-disk state under `picture_storage/`: for each user folder, the
contents of the regular files below it, in traversal order.  A user with no
folder has no entry.  Files whose `open`/`read` raises `OSError` or
`UnicodeDecodeError` are skipped by the source (`continue`), so only
readable contents are modelled. -/
abbrev Disk : Type := List (String × List String)

/-- The readable file contents under `picture_storage/<user_id>`
(empty when the folder does not exist). -/
def diskFiles (disk : Disk) (user_id : String) : List String :=
  match disk.filter (fun e => e.1 = user_id) with
  | [] => []
  | e :: _ => e.2

/-- The `db_picture_ids` set of `reconcile_images_by_user`: the picture ids
the table holds for the user (as a set, modelled by a deduplicated list). -/
def db_picture_ids (user_id : String) (picture_table : List PicRow) : List String :=
  (((picture_table.filter (fun p => p.user_id = user_id)).map
    (fun p => p.picture_id))).dedup

/-- The `disk_picture_ids` set of `reconcile_images_by_user`: the ids
recovered by content-scanning each readable file under the user's folder. -/
def disk_picture_ids (user_id : String) (disk : Disk) : List String :=
  ((diskFiles disk user_id).filterMap scanPictureId).dedup

/-- The result dictionary of `reconcile_images_by_user`. -/
structure ReconResult : Type where
  only_in_db : List String
  only_on_disk : List String
  deriving DecidableEq

/-- `main.reconcile_images_by_user`: diff the database ids against the ids
recovered from disk, returning both sorted set differences. -/
def reconcile_images_by_user (user_id : String) (picture_table : List PicRow)
    (disk : Disk) : ReconResult :=
  let dbIds := db_picture_ids user_id picture_table
  let diskIds := disk_picture_ids user_id disk
  { only_in_db := pySorted (dbIds.filter (fun x => decide (x ∉ diskIds)))
    only_on_disk := pySorted (diskIds.filter (fun x => decide (x ∉ dbIds))) }

/-- `user_table.find_one(user_id=...)`: the first row with that id. -/
def find_one_user (user_table : List UserRow) (user_id : String) : Option UserRow :=
  (user_table.filter (fun u => u.user_id = user_id)).head?

/-- The `results` loop of `reconcile_images`: a dictionary keyed by
`user_id`, one entry per user checked. -/
def buildResults (users_to_check : List UserRow) (picture_table : List PicRow)
    (disk : Disk) : Dict ReconResult :=
  users_to_check.foldl
    (fun results u =>
      setEntry results u.user_id (reconcile_images_by_user u.user_id picture_table disk))
    []

/-- `main.reconcile_images`: with a truthy `user_id` (Python `if user_id:` —
`None` and `""` are falsy), reconcile just that user, returning `{}` when
the user is unknown; otherwise reconcile every user in the table. -/
def reconcile_images (user_table : List UserRow) (picture_table : List PicRow)
    (disk : Disk) (user_id : Option String) : Dict ReconResult :=
  match user_id with
  | some uid =>
    if uid = "" then buildResults user_table picture_table disk
    else
      match find_one_user user_table uid with
      | Option.none => []
      | some record => buildResults [record] picture_table disk
  | Option.none => buildResults user_table picture_table disk

/-- `picture_table.find_one(user_id=..., picture_id=...)`: the first row
matching both. -/
def find_one_pic (picture_table : List PicRow) (user_id picture_id : String) :
    Option PicRow :=
  (picture_table.filter
    (fun p => p.user_id = user_id && p.picture_id = picture_id)).head?

/-- The loop of `batch_create_pointer_files`: ids with no backing record are
skipped, a found record is tag-parsed and handed to `create_pointer_file`,
and only `True` outcomes are counted; an exception raised by
`create_pointer_file` propagates (aborting the loop). -/
def batchLoop (mkF : List String → FsOutcome) (wF : List String → String → FsOutcome)
    (picture_table : List PicRow) (user_id : String) :
    List String → Nat → Except PyErr Nat
  | [], success_count => .ok success_count
  | picture_id :: rest, success_count =>
    match find_one_pic picture_table user_id picture_id with
    | Option.none => batchLoop mkF wF picture_table user_id rest success_count
    | some row =>
      match create_pointer_file mkF wF (safe_parse_tags row.toRecord) with
      | .error e => .error e
      | .ok (true, _) => batchLoop mkF wF picture_table user_id rest (success_count + 1)
      | .ok (false, _) => batchLoop mkF wF picture_table user_id rest success_count

/-- `main.batch_create_pointer_files`: count of successful pointer-file
writes over the given picture ids. -/
def batch_create_pointer_files (mkF : List String → FsOutcome)
    (wF : List String → String → FsOutcome) (picture_table : List PicRow)
    (user_id : String) (picture_ids : List String) : Except PyErr Nat :=
  batchLoop mkF wF picture_table user_id picture_ids 0

/-- Statement helper: `create_pointer_file` on this (tag-parsed) row returns
a Boolean rather than raising. -/
def createOk (mkF : List String → FsOutcome) (wF : List String → String → FsOutcome)
    (row : PicRow) : Bool :=
  match create_pointer_file mkF wF (safe_parse_tags row.toRecord) with
  | .ok _ => true
  | .error _ => false

/-- Statement helper: `create_pointer_file` on this (tag-parsed) row
returns `True`, i.e. the pointer-file write succeeded. -/
def pointerWriteSucceeds (mkF : List String → FsOutcome)
    (wF : List String → String → FsOutcome) (row : PicRow) : Bool :=
  match create_pointer_file mkF wF (safe_parse_tags row.toRecord) with
  | .ok (true, _) => true
  | _ => false

/-! ### Order facts about the string comparator -/

/-- The sorting relation used by `pySorted`, as a proposition. -/
def StrLeP (a b : String) : Prop := strLe a b = true

theorem charListLe_total : ∀ as bs : List Char,
    charListLe as bs = true ∨ charListLe bs as = true
  | [], _ => Or.inl rfl
  | _ :: _, [] => Or.inr rfl
  | a :: as, b :: bs => by
    rcases lt_trichotomy a b with h | h | h
    · left; simp [charListLe, h]
    · subst h
      rcases charListLe_total as bs with ih | ih <;>
        [left; right] <;> simp [charListLe, lt_irrefl, ih]
    · right; simp [charListLe, h]

theorem charListLe_trans : ∀ as bs cs : List Char,
    charListLe as bs = true → charListLe bs cs = true → charListLe as cs = true
  | [], _, _, _, _ => rfl
  | _ :: _, [], _, h1, _ => by simp [charListLe] at h1
  | _ :: _, _ :: _, [], _, h2 => by simp [charListLe] at h2
  | a :: as, b :: bs, c :: cs, h1, h2 => by
    rcases lt_trichotomy a b with hab | hab | hab
    · rcases lt_trichotomy b c with hbc | hbc | hbc
      · simp [charListLe, lt_trans hab hbc]
      · subst hbc; simp [charListLe, hab]
      · rw [charListLe, if_neg (asymm hbc), if_pos hbc] at h2; exact absurd h2 (by simp)
    · subst hab
      rcases lt_trichotomy a c with hbc | hbc | hbc
      · simp [charListLe, hbc]
      · subst hbc
        rw [charListLe, if_neg (lt_irrefl a), if_neg (lt_irrefl a)] at h1 h2
        simp [charListLe, lt_irrefl, charListLe_trans as bs cs h1 h2]
      · rw [charListLe, if_neg (asymm hbc), if_pos hbc] at h2; exact absurd h2 (by simp)
    · rw [charListLe, if_neg (asymm hab), if_pos hab] at h1; exact absurd h1 (by simp)

theorem charListLe_antisymm : ∀ as bs : List Char,
    charListLe as bs = true → charListLe bs as = true → as = bs
  | [], [], _, _ => rfl
  | [], _ :: _, _, h2 => by simp [charListLe] at h2
  | _ :: _, [], h1, _ => by simp [charListLe] at h1
  | a :: as, b :: bs, h1, h2 => by
    rcases lt_trichotomy a b with hab | hab | hab
    · rw [charListLe, if_neg (asymm hab), if_pos hab] at h2; exact absurd h2 (by simp)
    · subst hab
      rw [charListLe, if_neg (lt_irrefl a), if_neg (lt_irrefl a)] at h1 h2
      rw [charListLe_antisymm as bs h1 h2]
    · rw [charListLe, if_neg (asymm hab), if_pos hab] at h1; exact absurd h1 (by simp)

instance : IsTotal String StrLeP :=
  ⟨fun a b => charListLe_total a.data b.data⟩

instance : IsTrans String StrLeP :=
  ⟨fun a b c => charListLe_trans a.data b.data c.data⟩

instance : IsAntisymm String StrLeP :=
  ⟨fun a b h1 h2 => by
    cases a with
    | mk da =>
      cases b with
      | mk db => exact congrArg String.mk (charListLe_antisymm da db h1 h2)⟩

instance : DecidableRel StrLeP := fun _ _ => inferInstanceAs (Decidable (_ = true))

theorem pySorted_eq (l : List String) :
    pySorted l = List.insertionSort StrLeP l := rfl

theorem sorted_pySorted (l : List String) : List.Sorted StrLeP (pySorted l) :=
  List.sorted_insertionSort StrLeP l

theorem perm_pySorted (l : List String) : List.Perm (pySorted l) l :=
  List.perm_insertionSort StrLeP l

theorem mem_pySorted {x : String} {l : List String} : x ∈ pySorted l ↔ x ∈ l :=
  (perm_pySorted l).mem_iff

theorem nodup_pySorted {l : List String} (h : l.Nodup) : (pySorted l).Nodup :=
  (perm_pySorted l).nodup_iff.mpr h

theorem pySorted_congr_perm {l₁ l₂ : List String} (h : List.Perm l₁ l₂) :
    pySorted l₁ = pySorted l₂ :=
  List.eq_of_perm_of_sorted
    ((perm_pySorted l₁).trans (h.trans (perm_pySorted l₂).symm))
    (sorted_pySorted l₁) (sorted_pySorted l₂)

/-! ### Dictionary lemmas -/

theorem getKey_setKey_self : ∀ (r : Record) (k : String) (v : PyVal),
    getKey (setKey r k v) k = some v
  | [], k, v => by simp [setKey, getKey]
  | (k', v') :: rest, k, v => by
    by_cases h : k' = k
    · simp [setKey, getKey, h]
    · simp [setKey, getKey, h, getKey_setKey_self rest k v]

theorem getKey_setKey_ne : ∀ (r : Record) (k k' : String) (v : PyVal), k' ≠ k →
    getKey (setKey r k v) k' = getKey r k'
  | [], k, k', v, h => by simp [setKey, getKey, Ne.symm h]
  | (k₀, v₀) :: rest, k, k', v, h => by
    by_cases h₀ : k₀ = k
    · subst h₀; simp [setKey, getKey, Ne.symm h, h]
    · by_cases h₁ : k₀ = k'
      · simp [setKey, getKey, h₀, h₁, h]
      · simp [setKey, getKey, h₀, h₁, h, getKey_setKey_ne rest k k' v h]

/-! ### Claims -/

/-- C10: `safe_parse_tags` writes only the `tags` key — after the call the
`tags` binding is present, and the value of every other key is unchanged.
The returned dictionary is the argument's post-state (the source mutates
`picture` in place and returns the same object, which the state-passing
embedding renders as a single output value). -/
theorem safe_parse_tags_frame :
    (∀ (picture : Record) (k : String), k ≠ "tags" →
      getKey (safe_parse_tags picture) k = getKey picture k) ∧
    (∀ picture : Record, (getKey (safe_parse_tags picture) "tags").isSome = true) := by
  constructor
  · intro picture k hk
    exact getKey_setKey_ne picture "tags" k _ hk
  · intro picture
    rw [safe_parse_tags, getKey_setKey_self]
    rfl

/-- Witness for C10 at a concrete record: the `user_id` binding survives a
tag parse untouched. -/
theorem safe_parse_tags_frame_witness :
    getKey (safe_parse_tags [("user_id", .str "u1"), ("tags", .str "['a']")])
      "user_id" = some (.str "u1") := by
  rw [safe_parse_tags_frame.1 [("user_id", .str "u1"), ("tags", .str "['a']")]
    "user_id" (by decide)]
  rfl

/-- C4 (code bug): on the record `{"tags": "42"}` the source's
`safe_parse_tags` returns `tags = 42` — an integer, not a list — because
`ast.literal_eval("42")` succeeds with a non-list literal and only parse
*exceptions* are turned into `[]`; the function's own docstring promises
"the 'tags' value updated to a list". -/
theorem safe_parse_tags_non_list_bug :
    safe_parse_tags [("tags", .str "42")] = [("tags", .int 42)] := rfl

/-- C3 (code bug): on a record with a valid numeric `id` but no `user_id`
key, `get_path` returns `None` (its documented contract-violation signal)
and `create_pointer_file` then calls `None.mkdir`, raising an uncaught
`AttributeError` instead of returning `False` as its docstring ("False on
failure (invalid input, missing folder, permission error)") promises. -/
theorem create_pointer_file_raises_bug :
    create_pointer_file (fun _ => .ok) (fun _ _ => .ok) [("id", .int 1)] =
      .error .attributeError := rfl

/-- The redundant empty-check of `tag_normalizer` changes nothing: the
function is the sort of the filtered deduplicated token set. -/
theorem tag_normalizer_eq (s : String) :
    tag_normalizer s = pySorted ((strippedTokens s).dedup.filter fullmatchValidName) := by
  show (if (pySorted ((strippedTokens s).dedup.filter fullmatchValidName)).isEmpty
      then ([] : List String)
      else pySorted ((strippedTokens s).dedup.filter fullmatchValidName)) = _
  split
  next h => exact (List.isEmpty_iff.mp h).symm
  next => rfl

/-- C5: `tag_normalizer` returns exactly the lexicographically sorted,
deduplicated list of the `#`-split, whitespace-stripped, nonempty tokens
matching `[A-Za-z0-9_]+` — the output is sorted and duplicate-free, and a
string belongs to it exactly when it is a stripped nonempty token of the
input that matches the pattern (these three facts determine the list
uniquely); the spec's three examples evaluate as stated, and the function
is total on strings. -/
theorem tag_normalizer_spec :
    (∀ s : String, List.Sorted StrLeP (tag_normalizer s)) ∧
    (∀ s : String, (tag_normalizer s).Nodup) ∧
    (∀ s t : String,
      t ∈ tag_normalizer s ↔ t ∈ strippedTokens s ∧ fullmatchValidName t = true) ∧
    tag_normalizer "#foo #bar #foo" = ["bar", "foo"] ∧
    tag_normalizer "" = [] ∧
    tag_normalizer "#a! #b" = ["b"] := by
  refine ⟨fun s => ?_, fun s => ?_, fun s t => ?_, by decide, by decide, by decide⟩
  · rw [tag_normalizer_eq]; exact sorted_pySorted _
  · rw [tag_normalizer_eq]; exact nodup_pySorted ((List.nodup_dedup _).filter _)
  · rw [tag_normalizer_eq, mem_pySorted, List.mem_filter, List.mem_dedup]

/-- C7: path resolution is deterministic and order-stable — `get_path`
depends only on the `user_id` and the tag list (not on the `picture_id`
value), and two records whose raw tag strings contain the same stripped
tokens in any order resolve to the same path once normalized, because
`tag_normalizer` sorts. -/
theorem get_path_order_stable :
    (∀ (uid pid₁ pid₂ : String) (tags : PyVal),
      get_path [("user_id", .str uid), ("picture_id", .str pid₁), ("tags", tags)] =
        get_path [("user_id", .str uid), ("picture_id", .str pid₂), ("tags", tags)]) ∧
    (∀ (uid pid₁ pid₂ s₁ s₂ : String),
      List.Perm (strippedTokens s₁) (strippedTokens s₂) →
      get_path [("user_id", .str uid), ("picture_id", .str pid₁),
          ("tags", .list ((tag_normalizer s₁).map .str))] =
        get_path [("user_id", .str uid), ("picture_id", .str pid₂),
          ("tags", .list ((tag_normalizer s₂).map .str))]) := by
  have hnorm : ∀ s₁ s₂ : String, List.Perm (strippedTokens s₁) (strippedTokens s₂) →
      tag_normalizer s₁ = tag_normalizer s₂ := by
    intro s₁ s₂ h
    rw [tag_normalizer_eq, tag_normalizer_eq]
    exact pySorted_congr_perm (h.dedup.filter _)
  have hdet : ∀ (uid pid₁ pid₂ : String) (tags : PyVal),
      get_path [("user_id", .str uid), ("picture_id", .str pid₁), ("tags", tags)] =
        get_path [("user_id", .str uid), ("picture_id", .str pid₂), ("tags", tags)] :=
    fun _ _ _ _ => rfl
  refine ⟨hdet, ?_⟩
  intro uid pid₁ pid₂ s₁ s₂ h
  rw [hnorm s₁ s₂ h]
  exact hdet uid pid₁ pid₂ _

/-- Witness for C7: the raw tag strings `"#b #a"` and `"#a #b"` resolve to
the same path. -/
theorem get_path_order_stable_witness :
    get_path [("user_id", .str "u1"), ("picture_id", .str "p1"),
        ("tags", .list ((tag_normalizer "#b #a").map .str))] =
      get_path [("user_id", .str "u1"), ("picture_id", .str "p2"),
        ("tags", .list ((tag_normalizer "#a #b").map .str))] :=
  get_path_order_stable.2 "u1" "p1" "p2" "#b #a" "#a #b" (by decide)

/-- C1: reconciliation is a symmetric difference — `only_in_db` is the
sorted duplicate-free list of exactly the ids in the database set and not
in the disk set, `only_on_disk` the sorted duplicate-free list of exactly
the ids in the disk set and not in the database set, and when the two sets
are equal both lists are empty. -/
theorem reconcile_symmetric_difference (uid : String) (pics : List PicRow)
    (disk : Disk) :
    List.Sorted StrLeP (reconcile_images_by_user uid pics disk).only_in_db ∧
    (reconcile_images_by_user uid pics disk).only_in_db.Nodup ∧
    (∀ x : String, x ∈ (reconcile_images_by_user uid pics disk).only_in_db ↔
      x ∈ db_picture_ids uid pics ∧ x ∉ disk_picture_ids uid disk) ∧
    List.Sorted StrLeP (reconcile_images_by_user uid pics disk).only_on_disk ∧
    (reconcile_images_by_user uid pics disk).only_on_disk.Nodup ∧
    (∀ x : String, x ∈ (reconcile_images_by_user uid pics disk).only_on_disk ↔
      x ∈ disk_picture_ids uid disk ∧ x ∉ db_picture_ids uid pics) ∧
    ((∀ x : String, x ∈ db_picture_ids uid pics ↔ x ∈ disk_picture_ids uid disk) →
      (reconcile_images_by_user uid pics disk).only_in_db = [] ∧
      (reconcile_images_by_user uid pics disk).only_on_disk = []) := by
  have hdb : ∀ x : String, x ∈ (reconcile_images_by_user uid pics disk).only_in_db ↔
      x ∈ db_picture_ids uid pics ∧ x ∉ disk_picture_ids uid disk := by
    intro x
    show x ∈ pySorted _ ↔ _
    rw [mem_pySorted, List.mem_filter, decide_eq_true_eq]
  have hdisk : ∀ x : String, x ∈ (reconcile_images_by_user uid pics disk).only_on_disk ↔
      x ∈ disk_picture_ids uid disk ∧ x ∉ db_picture_ids uid pics := by
    intro x
    show x ∈ pySorted _ ↔ _
    rw [mem_pySorted, List.mem_filter, decide_eq_true_eq]
  refine ⟨sorted_pySorted _,
    nodup_pySorted ((List.nodup_dedup _).filter _), hdb,
    sorted_pySorted _,
    nodup_pySorted ((List.nodup_dedup _).filter _), hdisk, ?_⟩
  intro hset
  constructor
  · rw [List.eq_nil_iff_forall_not_mem]
    intro x hx
    rcases (hdb x).mp hx with ⟨h1, h2⟩
    exact h2 ((hset x).mp h1)
  · rw [List.eq_nil_iff_forall_not_mem]
    intro x hx
    rcases (hdisk x).mp hx with ⟨h1, h2⟩
    exact h2 ((hset x).mpr h1)

/-- Witness for C1 at a concrete state with equal id-sets: both difference
lists are empty. -/
theorem reconcile_symmetric_difference_witness :
    (reconcile_images_by_user "u1" [⟨.int 1, "p1", "u1", .str "[]"⟩]
      [("u1", ["picture_id: p1"])]).only_in_db = [] ∧
    (reconcile_images_by_user "u1" [⟨.int 1, "p1", "u1", .str "[]"⟩]
      [("u1", ["picture_id: p1"])]).only_on_disk = [] :=
  (reconcile_symmetric_difference "u1" [⟨.int 1, "p1", "u1", .str "[]"⟩]
    [("u1", ["picture_id: p1"])]).2.2.2.2.2.2 (fun _ => Iff.rfl)

/-- `joinpath` unpacking of a list of strings yields exactly those
segments. -/
theorem joinSegments_strs (l : List String) :
    joinSegments (.list (l.map .str)) = some l := by
  induction l with
  | nil => rfl
  | cons t ts ih =>
    show (strSegments (List.map PyVal.str ts)).map (t :: ·) = some (t :: ts)
    rw [show strSegments (List.map PyVal.str ts) = some ts from ih]
    rfl

/-- `get_path` on a record with string `user_id`, present `picture_id` and
a string-list `tags` value resolves to
`picture_storage/<user_id>/<tag_1>/.../<tag_n>`. -/
theorem get_path_eval (n : PyVal) (uid pid : String) (ts : List String) :
    get_path [("id", n), ("user_id", .str uid), ("picture_id", .str pid),
      ("tags", .list (ts.map .str))] =
      .ok (some ("picture_storage" :: uid :: ts)) := by
  cases ts with
  | nil => rfl
  | cons t ts' =>
    have hj : joinSegments (PyVal.list (PyVal.str t :: List.map PyVal.str ts')) =
        some (t :: ts') := joinSegments_strs (t :: ts')
    have htr : pyTruthy (PyVal.list (PyVal.str t :: List.map PyVal.str ts')) = true := rfl
    simp [get_path, safe_parse_tags, getKey, setKey, hj, htr]

/-- Full evaluation of `create_pointer_file` on a well-formed picture
record when both filesystem calls succeed. -/
theorem create_pointer_file_eval (n : Int) (uid pid : String) (ts : List String)
    (mkF : List String → FsOutcome) (wF : List String → String → FsOutcome)
    (hmk : mkF ("picture_storage" :: uid :: ts) = .ok)
    (hwr : wF ("picture_storage" :: uid :: ts) (zeroPad10 n ++ ".txt") = .ok) :
    create_pointer_file mkF wF
      [("id", .int n), ("user_id", .str uid), ("picture_id", .str pid),
       ("tags", .list (ts.map .str))] =
      .ok (true, [⟨"picture_storage" :: uid :: ts, zeroPad10 n ++ ".txt",
        "Pointer file for picture_id: " ++ pid ++ "\nUser ID: " ++ uid ++
          "\nTags: " ++ pyRepr (.list (ts.map .str))⟩]) := by
  have hpath := get_path_eval (.int n) uid pid ts
  simp [create_pointer_file, getKey, pyToInt, hpath, hmk, hwr,
    safe_parse_tags, setKey, pyStr]

/-- C6: on-disk layout — for a record with numeric `id`, string `user_id`
and `picture_id` and tag list `t1..tn`, the pointer file is created in
directory `picture_storage/<user_id>/<t1>/.../<tn>` (directly under the
user folder when the list is empty), named `<id zero-padded to width 10>.txt`,
with content the three lines `Pointer file for picture_id: <picture_id>`,
`User ID: <user_id>` and `Tags: <tags>` (the tag list printed by Python
`str`). -/
theorem pointer_file_layout (n : Int) (uid pid : String) (ts : List String)
    (mkF : List String → FsOutcome) (wF : List String → String → FsOutcome)
    (hmk : mkF ("picture_storage" :: uid :: ts) = .ok)
    (hwr : wF ("picture_storage" :: uid :: ts) (zeroPad10 n ++ ".txt") = .ok) :
    create_pointer_file mkF wF
      [("id", .int n), ("user_id", .str uid), ("picture_id", .str pid),
       ("tags", .list (ts.map .str))] =
      .ok (true, [⟨"picture_storage" :: uid :: ts, zeroPad10 n ++ ".txt",
        "Pointer file for picture_id: " ++ pid ++ "\nUser ID: " ++
          uid ++ "\nTags: " ++ pyStr (.list (ts.map .str))⟩]) :=
  create_pointer_file_eval n uid pid ts mkF wF hmk hwr

/-- A folder-safe word character is never whitespace. -/
theorem word_not_space (c : Char) (h : isWordChar c = true) : isPySpace c = false := by
  cases hc : isPySpace c
  · rfl
  · exfalso
    unfold isPySpace at hc
    simp only [Bool.or_eq_true, decide_eq_true_eq] at hc
    rcases hc with ((((h1 | h1) | h1) | h1) | h1) | h1 <;>
      (subst h1; exact absurd h (by decide))

/-- `takeWhile` over a block that satisfies the predicate followed by a
separator that does not returns the block. -/
theorem takeWhile_word_append (l₁ : List Char) (c : Char) (l₂ : List Char)
    (h1 : ∀ x ∈ l₁, isWordChar x = true) (h2 : isWordChar c = false) :
    List.takeWhile isWordChar (l₁ ++ c :: l₂) = l₁ := by
  induction l₁ with
  | nil => simp [List.takeWhile_cons, h2]
  | cons a as ih =>
    simp [List.takeWhile_cons, h1 a (List.mem_cons_self a as),
      ih (fun x hx => h1 x (List.mem_cons_of_mem a hx))]

/-- A position whose head is not `p` cannot start a match of the pattern. -/
theorem matchHere_head_ne (c : Char) (cs : List Char) (h : ¬ c = 'p') :
    matchHere (c :: cs) = none := by
  simp [matchHere, pidPattern, stripLiteral, h]

/-- `re.search` steps over a position whose head is not `p`. -/
theorem searchFrom_cons_skip (c : Char) (cs : List Char) (h : ¬ c = 'p') :
    searchFrom (c :: cs) = searchFrom cs := by
  show (match matchHere (c :: cs) with
        | some g => some g
        | Option.none => searchFrom cs) = searchFrom cs
  rw [matchHere_head_ne c cs h]

/-- `re.search` skips any leading block containing no `p`. -/
theorem searchFrom_append_no_p (pre tail : List Char) (h : ∀ c ∈ pre, ¬ c = 'p') :
    searchFrom (pre ++ tail) = searchFrom tail := by
  induction pre with
  | nil => rfl
  | cons c cs ih =>
    rw [List.cons_append, searchFrom_cons_skip c _ (h c (List.mem_cons_self c cs))]
    exact ih (fun x hx => h x (List.mem_cons_of_mem c hx))

/-- At the pattern itself, `re.search` returns the captured group: the
maximal word-character run after the maximal whitespace run. -/
theorem searchFrom_at_pattern (tail : List Char)
    (h : ((tail.dropWhile isPySpace).takeWhile isWordChar).isEmpty = false) :
    searchFrom ("picture_id: ".data ++ tail) =
      some ((tail.dropWhile isPySpace).takeWhile isWordChar) := by
  have hm : matchHere ("picture_id: ".data ++ tail) =
      some ((tail.dropWhile isPySpace).takeWhile isWordChar) := by
    show (if ((tail.dropWhile isPySpace).takeWhile isWordChar).isEmpty = true
          then none
          else some ((tail.dropWhile isPySpace).takeWhile isWordChar)) = _
    rw [h]
    simp
  show (match matchHere ("picture_id: ".data ++ tail) with
        | some g => some g
        | Option.none => searchFrom ("icture_id: ".data ++ tail)) = _
  rw [hm]

/-- The content scan recovers the picture id from pointer-file content built
around any nonempty word-character picture id. -/
theorem scanPictureId_content (pid uid tstr : String)
    (hne : pid.data ≠ []) (hw : ∀ c ∈ pid.data, isWordChar c = true) :
    scanPictureId ("Pointer file for picture_id: " ++ pid ++ "\nUser ID: " ++
      uid ++ "\nTags: " ++ tstr) = some pid := by
  obtain ⟨d, ds, hds⟩ : ∃ d ds, pid.data = d :: ds := by
    cases hpd : pid.data with
    | nil => exact absurd hpd hne
    | cons d ds => exact ⟨d, ds, rfl⟩
  have hdata : ("Pointer file for picture_id: " ++ pid ++ "\nUser ID: " ++
      uid ++ "\nTags: " ++ tstr).data =
      "Pointer file for ".data ++ ("picture_id: ".data ++ (pid.data ++
        ('\n' :: ("User ID: ".data ++ (uid.data ++
          ("\nTags: ".data ++ tstr.data)))))) := by
    simp only [String.data_append, List.append_assoc]
    rfl
  have hdrop : List.dropWhile isPySpace (pid.data ++
      ('\n' :: ("User ID: ".data ++ (uid.data ++ ("\nTags: ".data ++ tstr.data))))) =
      pid.data ++
        ('\n' :: ("User ID: ".data ++ (uid.data ++ ("\nTags: ".data ++ tstr.data)))) := by
    rw [hds, List.cons_append, List.dropWhile_cons,
      word_not_space d (hw d (by rw [hds]; exact List.mem_cons_self d ds))]
    simp
  have htake : List.takeWhile isWordChar (pid.data ++
      ('\n' :: ("User ID: ".data ++ (uid.data ++ ("\nTags: ".data ++ tstr.data))))) =
      pid.data :=
    takeWhile_word_append pid.data '\n' _ hw (by decide)
  show (searchFrom ("Pointer file for picture_id: " ++ pid ++ "\nUser ID: " ++
      uid ++ "\nTags: " ++ tstr).data).map String.mk = some pid
  rw [hdata, searchFrom_append_no_p "Pointer file for ".data _ (by decide),
    searchFrom_at_pattern _ (by rw [hdrop, htake, hds]; rfl)]
  rw [hdrop, htake]
  rfl

/-- C2 (amended): round-trip — for every picture record whose `picture_id`
is a nonempty token of word characters (`[A-Za-z0-9_]`), writing its pointer
file with `create_pointer_file` and applying the content-scan pattern
`picture_id:\s*(\w+)` to the written content recovers exactly the original
`picture_id`. -/
theorem pointer_file_roundtrip (n : Int) (uid pid : String) (ts : List String)
    (mkF : List String → FsOutcome) (wF : List String → String → FsOutcome)
    (hmk : mkF ("picture_storage" :: uid :: ts) = .ok)
    (hwr : wF ("picture_storage" :: uid :: ts) (zeroPad10 n ++ ".txt") = .ok)
    (hne : pid.data ≠ []) (hword : ∀ c ∈ pid.data, isWordChar c = true) :
    ∃ ev : WriteEvent,
      create_pointer_file mkF wF [("id", .int n), ("user_id", .str uid),
        ("picture_id", .str pid), ("tags", .list (ts.map .str))] =
        .ok (true, [ev]) ∧
      scanPictureId ev.content = some pid :=
  ⟨_, create_pointer_file_eval n uid pid ts mkF wF hmk hwr,
    scanPictureId_content pid uid (pyRepr (.list (ts.map .str))) hne hword⟩

/-- Witness for C2 at a concrete record. -/
theorem pointer_file_roundtrip_witness :
    ∃ ev : WriteEvent,
      create_pointer_file (fun _ => .ok) (fun _ _ => .ok)
        [("id", .int 7), ("user_id", .str "u1"), ("picture_id", .str "p1"),
         ("tags", .list [])] = .ok (true, [ev]) ∧
      scanPictureId ev.content = some "p1" :=
  pointer_file_roundtrip 7 "u1" "p1" [] (fun _ => .ok) (fun _ _ => .ok)
    rfl rfl (by decide) (by decide)

/-- Counterexample to C2 as stated: for the picture record with
`picture_id = "p-1"` (possible via the CSV loader, which does not validate
the id's format) the pointer file is written, but the scan pattern's `\w+`
group stops at the hyphen and recovers `"p"`, not `"p-1"`. -/
theorem pointer_file_roundtrip_cex :
    create_pointer_file (fun _ => .ok) (fun _ _ => .ok)
      [("id", .int 7), ("user_id", .str "u1"), ("picture_id", .str "p-1"),
       ("tags", .list [])] =
      .ok (true, [⟨["picture_storage", "u1"], "0000000007.txt",
        "Pointer file for picture_id: p-1\nUser ID: u1\nTags: []"⟩]) ∧
    scanPictureId "Pointer file for picture_id: p-1\nUser ID: u1\nTags: []" =
      some "p" ∧
    ("p" : String) ≠ "p-1" :=
  ⟨rfl, rfl, by decide⟩

/-- Witness for C6 at a concrete record. -/
theorem pointer_file_layout_witness :
    create_pointer_file (fun _ => .ok) (fun _ _ => .ok)
      [("id", .int 1), ("user_id", .str "u1"), ("picture_id", .str "p1"),
       ("tags", .list [.str "a", .str "b"])] =
      .ok (true, [⟨["picture_storage", "u1", "a", "b"], "0000000001.txt",
        "Pointer file for picture_id: p1\nUser ID: u1\nTags: ['a', 'b']"⟩]) :=
  pointer_file_layout 1 "u1" "p1" ["a", "b"] (fun _ => .ok) (fun _ _ => .ok) rfl rfl

/-- A row found by `find_one` is a row of the table. -/
theorem find_one_pic_mem {pics : List PicRow} {uid pid : String} {row : PicRow}
    (h : find_one_pic pics uid pid = some row) : row ∈ pics := by
  have hm : row ∈ pics.filter (fun p => p.user_id = uid && p.picture_id = pid) :=
    List.mem_of_mem_head? (by simp [find_one_pic] at h; simp [h])
  exact (List.mem_filter.mp hm).1

/-- The batch loop adds to its accumulator the number of ids whose record is
found and whose write succeeds. -/
theorem batchLoop_count (mkF : List String → FsOutcome)
    (wF : List String → String → FsOutcome) (pics : List PicRow) (uid : String)
    (hsafe : ∀ row ∈ pics, createOk mkF wF row = true) :
    ∀ (ids : List String) (acc : Nat),
      batchLoop mkF wF pics uid ids acc =
        .ok (acc + ids.countP (fun pid =>
          match find_one_pic pics uid pid with
          | Option.none => false
          | some row => pointerWriteSucceeds mkF wF row)) := by
  intro ids
  induction ids with
  | nil => intro acc; simp [batchLoop]
  | cons pid rest ih =>
    intro acc
    rw [List.countP_cons]
    cases hfind : find_one_pic pics uid pid with
    | none =>
      simp only [batchLoop, hfind, ih acc]
      simp
    | some row =>
      have hok := hsafe row (find_one_pic_mem hfind)
      rw [createOk] at hok
      cases hcr : create_pointer_file mkF wF (safe_parse_tags row.toRecord) with
      | error e => rw [hcr] at hok; exact absurd hok (by simp)
      | ok res =>
        rcases res with ⟨b, evs⟩
        have hs : pointerWriteSucceeds mkF wF row = b := by
          rw [pointerWriteSucceeds, hcr]; cases b <;> rfl
        cases b with
        | true =>
          simp only [batchLoop, hfind, hcr, ih (acc + 1), hs]
          congr 1
          simp
          omega
        | false =>
          simp only [batchLoop, hfind, hcr, ih acc, hs]
          simp

/-- C9: for every user id and sequence of picture ids (over a table whose
rows `create_pointer_file` can process without raising),
`batch_create_pointer_files` returns exactly the number of ids for which a
backing record is found and the pointer-file write succeeds; ids with no
record and ids whose write fails contribute nothing and do not abort the
remaining iterations. -/
theorem batch_create_pointer_files_count (mkF : List String → FsOutcome)
    (wF : List String → String → FsOutcome) (pics : List PicRow) (uid : String)
    (ids : List String) (hsafe : ∀ row ∈ pics, createOk mkF wF row = true) :
    batch_create_pointer_files mkF wF pics uid ids =
      .ok (ids.countP (fun pid =>
        match find_one_pic pics uid pid with
        | Option.none => false
        | some row => pointerWriteSucceeds mkF wF row)) := by
  rw [batch_create_pointer_files, batchLoop_count mkF wF pics uid hsafe ids 0]
  rw [Nat.zero_add]

/-- Witness for C9: a batch over `["p1", "missing", "p3"]` where only `p1`
and `p3` have records returns 2, skipping `missing`. -/
theorem batch_create_pointer_files_count_witness :
    batch_create_pointer_files (fun _ => .ok) (fun _ _ => .ok)
      [⟨.int 1, "p1", "u", .list []⟩, ⟨.int 3, "p3", "u", .list []⟩] "u"
      ["p1", "missing", "p3"] = .ok 2 :=
  (batch_create_pointer_files_count (fun _ => .ok) (fun _ _ => .ok)
    [⟨.int 1, "p1", "u", .list []⟩, ⟨.int 3, "p3", "u", .list []⟩] "u"
    ["p1", "missing", "p3"] (by decide)).trans (by rfl)

/-- Setting a fresh key appends the binding (Python dicts keep insertion
order). -/
theorem setEntry_fresh {α : Type} : ∀ (d : Dict α) (k : String) (v : α),
    k ∉ d.map Prod.fst → setEntry d k v = d ++ [(k, v)]
  | [], _, _, _ => rfl
  | (k₀, v₀) :: rest, k, v, h => by
    have hne : ¬ k₀ = k := by
      intro he
      exact h (by simp [he])
    simp only [setEntry, if_neg hne, List.cons_append, List.cons.injEq, true_and]
    exact setEntry_fresh rest k v (fun hm => h (by simp [hm]))

/-- Over users with pairwise-distinct fresh ids, the `results` loop appends
one entry per user, in order. -/
theorem buildResults_fresh (picture_table : List PicRow) (disk : Disk) :
    ∀ (users : List UserRow) (acc : Dict ReconResult),
      (users.map UserRow.user_id).Nodup →
      (∀ u ∈ users, u.user_id ∉ acc.map Prod.fst) →
      users.foldl
        (fun results u =>
          setEntry results u.user_id
            (reconcile_images_by_user u.user_id picture_table disk)) acc =
        acc ++ users.map (fun u => (u.user_id,
          reconcile_images_by_user u.user_id picture_table disk)) := by
  intro users
  induction users with
  | nil => intro acc _ _; simp
  | cons u rest ih =>
    intro acc hnd hacc
    rw [List.foldl_cons,
      setEntry_fresh acc u.user_id _ (hacc u (List.mem_cons_self u rest)),
      ih (acc ++ [(u.user_id, reconcile_images_by_user u.user_id picture_table disk)])
        (by simpa using hnd.of_cons)
        ?_]
    · simp
    · intro v hv
      simp only [List.map_append, List.mem_append]
      rintro (hmem | hmem)
      · exact hacc v (List.mem_cons_of_mem u hv) hmem
      · have hvne : v.user_id ≠ u.user_id := by
          intro he
          have : u.user_id ∈ rest.map UserRow.user_id := by
            rw [← he]; exact List.mem_map_of_mem UserRow.user_id hv
          exact (List.nodup_cons.mp hnd).1 this
        simp at hmem
        exact hvne hmem

/-- C8 (amended): for every *nonempty* user id absent from the user table,
`reconcile_images` with that id supplied returns the empty mapping (after a
logged warning) without raising; with no user id supplied it returns one
reconciliation result per user of the table, keyed by user id (ids being
unique in the table).  The empty-string id is excluded: Python's
`if user_id:` treats `""` as "no user id supplied". -/
theorem reconcile_images_users (user_table : List UserRow)
    (picture_table : List PicRow) (disk : Disk) :
    (∀ uid : String, uid ≠ "" → (∀ u ∈ user_table, u.user_id ≠ uid) →
      reconcile_images user_table picture_table disk (some uid) = []) ∧
    ((user_table.map UserRow.user_id).Nodup →
      reconcile_images user_table picture_table disk Option.none =
        user_table.map (fun u => (u.user_id,
          reconcile_images_by_user u.user_id picture_table disk))) := by
  constructor
  · intro uid hne habs
    have hfind : find_one_user user_table uid = Option.none := by
      rw [find_one_user,
        show user_table.filter (fun u => u.user_id = uid) = [] by
          rw [List.filter_eq_nil_iff]
          intro u hu
          simp [habs u hu]]
      rfl
    simp [reconcile_images, hne, hfind]
  · intro hnd
    show buildResults user_table picture_table disk = _
    rw [buildResults, buildResults_fresh picture_table disk user_table [] hnd
      (by simp)]
    simp

/-- Witness for C8: an unknown (nonempty) user id gives the empty mapping;
no user id gives one keyed entry per user. -/
theorem reconcile_images_users_witness :
    reconcile_images [⟨"u1"⟩] [] [] (some "zz") = [] ∧
    reconcile_images [⟨"u1"⟩] [] [] Option.none =
      [("u1", reconcile_images_by_user "u1" [] [])] :=
  ⟨(reconcile_images_users [⟨"u1"⟩] [] []).1 "zz" (by decide) (by decide),
   (reconcile_images_users [⟨"u1"⟩] [] []).2 (by decide)⟩

/-- Counterexample to C8 as stated: the empty string is a user id not
present in the table `[{user_id: "u1"}]`, yet supplying it does not yield
the empty mapping — `if user_id:` is false for `""`, so the source
reconciles *all* users instead. -/
theorem reconcile_images_empty_uid_cex :
    reconcile_images [⟨"u1"⟩] [] [] (some "") =
      [("u1", { only_in_db := [], only_on_disk := [] })] ∧
    reconcile_images [⟨"u1"⟩] [] [] (some "") ≠ [] :=
  ⟨rfl, by intro h; exact absurd (congrArg List.length h) (by decide)⟩

end SocialNetwork
